import Mathlib

/-
Verification of the meshterm message-persistence and conversation-state engine.

This file shallowly embeds the storage layer (src/meshterm/storage.py) and the
shared-state layer (src/meshterm/state.py) of the meshterm repository:

* Python/JSON values are modelled by the inductive types `PyVal` (the dynamic
  values reaching the storage boundary) and `JVal` (the JSON values persisted
  in SQLite TEXT columns).  Floating point numbers are modelled as integers:
  no claim depends on float arithmetic, only on values being stored and
  returned unchanged.
* The SQLite database is modelled by the `Storage` structure: one list per
  table, kept in rowid (insertion) order, plus the AUTOINCREMENT counters.
  A `SELECT` without `ORDER BY` is modelled as scanning in list order, which
  is SQLite's behaviour for these single-table queries; `ORDER BY id DESC`
  is modelled by an explicit insertion sort so that the query functions are
  defined on arbitrary table contents.
* SQL `LIKE` is modelled faithfully, including its `%`/`_` wildcards and its
  ASCII-only case folding.
* Python dicts are modelled as association lists with insertion-order
  semantics (`dictSet` replaces the value of an existing key in place and
  appends new keys); Python dicts cannot hold duplicate keys, so lemmas that
  need the no-duplicate property take it as a hypothesis.
* In-place mutation shared through aliased references (the pending-delivery
  packet dict is the same object as the one stored in the message buffer) is
  not modelled; no claim below depends on that aliasing.
-/

namespace Meshterm

/-- A JSON value, as persisted in SQLite TEXT columns.  Serialize-then-parse of
a JSON value is the identity, so the serialized text column is modelled by the
`JVal` itself. -/
inductive JVal where
  | null
  | bool (b : Bool)
  | int (n : Int)
  | str (s : String)
  | arr (xs : List JVal)
  | obj (kvs : List (String × JVal))

/-- A dynamic Python value of the shapes that reach the storage boundary:
scalars, bytes, enum members, lists/tuples, dicts, and objects exposing
`__dict__`. -/
inductive PyVal where
  | none
  | bool (b : Bool)
  | int (n : Int)
  | str (s : String)
  | bytes (bs : List Nat)
  | enum (n : String)
  | list (xs : List PyVal)
  | dict (kvs : List (String × PyVal))
  | obj (kvs : List (String × PyVal))

/-- A Python dict (association list in insertion order; keys are unique in any
dict produced by Python). -/
abbrev PyDict := List (String × PyVal)

/-- Fold an ASCII upper-case letter to lower case, as SQLite's default `LIKE`
and `NOCASE` collation do (ASCII only). -/
def asciiLower (c : Char) : Char :=
  if 'A' ≤ c ∧ c ≤ 'Z' then Char.ofNat (c.toNat + 32) else c

def natHexChars (n : Nat) : List Char := Nat.toDigits 16 n

def leftPad (c : Char) (w : Nat) (s : List Char) : List Char :=
  List.replicate (w - s.length) c ++ s

/-- Python `f"{n:0{w}x}"`: zero-padded lower-case hex; for a negative int the
sign occupies one position of the field width. -/
def intHexPad (n : Int) (w : Nat) : String :=
  if n < 0 then String.mk ('-' :: leftPad '0' (w - 1) (natHexChars (-n).toNat))
  else String.mk (leftPad '0' w (natHexChars n.toNat))

/-- Python `str()` on the scalar values that reach it in the embedded code
(`str(decoded.get('portnum', ''))`, `str(node_id)`).  The textual form of
aggregate values is never relied on by a claim and is modelled by a
placeholder. -/
def pyStr : PyVal → String
  | .none => "None"
  | .bool b => if b then "True" else "False"
  | .int n => toString n
  | .str s => s
  | .enum n => n
  | .bytes _ => "<bytes>"
  | .list _ => "<list>"
  | .dict _ => "<dict>"
  | .obj _ => "<object>"

/-- formatting.py `format_node_id`: an int becomes `!%08x`; anything else is
passed through `str()`.  Python `bool` is a subclass of `int` and takes the
hex path. -/
def format_node_id : PyVal → String
  | .int n => "!" ++ intHexPad n 8
  | .bool b => "!" ++ intHexPad (if b then 1 else 0) 8
  | v => pyStr v

/-- Python truthiness of a value. -/
def pyTruthy : PyVal → Bool
  | .none => false
  | .bool b => b
  | .int n => n != 0
  | .str s => s != ""
  | .bytes bs => !bs.isEmpty
  | .enum _ => true
  | .list xs => !xs.isEmpty
  | .dict kvs => !kvs.isEmpty
  | .obj _ => true

def byteHexChars (b : Nat) : List Char := leftPad '0' 2 (natHexChars (b % 256))

/-- Python `bytes.hex()`. -/
def bytesHex (bs : List Nat) : String := String.mk (List.flatten (bs.map byteHexChars))

mutual

/-- storage.py `json_serializable` (used by `safe_json` in `store_packet` and by
`store_node`): recursively convert a value to a primitive-only representation
(bytes to hex text, enum to its name, object to its field map). -/
def jsonSerializable : PyVal → JVal
  | .none => .null
  | .bool b => .bool b
  | .int n => .int n
  | .str s => .str s
  | .bytes bs => .str (bytesHex bs)
  | .enum n => .str n
  | .list xs => .arr (jsonSerializableList xs)
  | .dict kvs => .obj (jsonSerializableKVs kvs)
  | .obj kvs => .obj (jsonSerializableKVs kvs)

def jsonSerializableList : List PyVal → List JVal
  | [] => []
  | x :: xs => jsonSerializable x :: jsonSerializableList xs

def jsonSerializableKVs : List (String × PyVal) → List (String × JVal)
  | [] => []
  | (k, v) :: kvs => (k, jsonSerializable v) :: jsonSerializableKVs kvs

end

/-- Python dict assignment `d[k] = v` on an association list: replace the
value of an existing key in place, otherwise append.  This is the semantics of
assignment on a Python dict and of key assignment on a parsed JSON object. -/
def alistSet {β : Type} (d : List (String × β)) (k : String) (v : β) : List (String × β) :=
  cond (d.any (fun kv => kv.1 == k)) (d.map (fun kv => cond (kv.1 == k) (k, v) kv))
    (d ++ [(k, v)])

/-- Key assignment on a decoded JSON value (used by `_row_to_stored_message`
when it re-attaches delivery markers to the parsed `raw_packet` dict). -/
def objSet (j : JVal) (k : String) (v : JVal) : JVal :=
  match j with
  | .obj kvs => .obj (alistSet kvs k v)
  | other => other

/-- Python `d[k] = v` on a dict. -/
def dictSet (d : PyDict) (k : String) (v : PyVal) : PyDict := alistSet d k v

/-- Python `d.update(e)`. -/
def dictUpdate (d e : PyDict) : PyDict := e.foldl (fun acc kv => dictSet acc kv.1 kv.2) d

/-- Python `d.pop(k)` (the removal part). -/
def dictRemove (d : PyDict) (k : String) : PyDict := d.filter (fun kv => kv.1 != k)

/-- A row of the `packets` table (storage.py SCHEMA). -/
structure PacketRow where
  id : Nat
  timestamp : Int
  packet_id : Option Int
  from_node : String
  to_node : String
  channel : Int
  portnum : String
  payload : JVal
  raw_packet : JVal
  snr : Option Int
  rssi : Option Int
  hops : Option Int
  is_tx : Bool
  delivered : Option Bool
  error_reason : Option String

/-- A row of the `nodes` table. -/
structure NodeRow where
  node_id : String
  data : JVal
  last_updated : Int

/-- A row of the `reactions` table. -/
structure ReactionRow where
  id : Nat
  message_db_id : Nat
  message_packet_id : Option Int
  reactor_node : String
  emoji : String
  timestamp : Int
deriving DecidableEq

/-- A row of the `reply_refs` table. -/
structure ReplyRefRow where
  id : Nat
  reply_db_id : Nat
  parent_db_id : Option Nat
  parent_packet_id : Int
  timestamp : Int
deriving DecidableEq

/-- The SQLite database of `LogStorage`: one list per table in rowid order,
plus the AUTOINCREMENT counters (which survive `DELETE`). -/
structure Storage where
  packets : List PacketRow
  nextPacketId : Nat
  nodes : List NodeRow
  reactions : List ReactionRow
  nextReactionId : Nat
  replyRefs : List ReplyRefRow
  nextReplyRefId : Nat

/-- A fresh database (counters start at 1, as SQLite rowids do). -/
def Storage.empty : Storage :=
  { packets := [], nextPacketId := 1, nodes := [], reactions := [],
    nextReactionId := 1, replyRefs := [], nextReplyRefId := 1 }

/-- The `StoredMessage` dataclass (storage.py). -/
structure StoredMessage where
  id : Nat
  timestamp : Int
  packet_id : Option Int
  from_node : String
  to_node : String
  channel : Int
  portnum : String
  payload : JVal
  raw_packet : JVal
  snr : Option Int
  rssi : Option Int
  hops : Option Int
  is_tx : Bool
  delivered : Option Bool
  error_reason : Option String

/-- `packet.get('decoded', {})`.  (A non-dict `decoded` value would raise in
the source when `.get` is called on it; packets always carry a dict here.) -/
def pktDecoded (pkt : PyDict) : PyDict :=
  match pkt.lookup "decoded" with
  | some (.dict kvs) => kvs
  | _ => []

/-- `str(decoded.get('portnum', ''))`. -/
def pktPortnum (pkt : PyDict) : String :=
  pyStr ((pktDecoded pkt).lookup "portnum" |>.getD (.str ""))

/-- `packet.get('from', packet.get('fromId', ''))`. -/
def pktFrom (pkt : PyDict) : PyVal :=
  match pkt.lookup "from" with
  | some v => v
  | none =>
    match pkt.lookup "fromId" with
    | some v => v
    | none => .str ""

/-- `packet.get('to', packet.get('toId', ''))`. -/
def pktTo (pkt : PyDict) : PyVal :=
  match pkt.lookup "to" with
  | some v => v
  | none =>
    match pkt.lookup "toId" with
    | some v => v
    | none => .str ""

/-- `hops = hop_start - hop_limit` when both are present (they are ints when
present). -/
def pktHops (pkt : PyDict) : Option Int :=
  match pkt.lookup "hopStart", pkt.lookup "hopLimit" with
  | some (.int a), some (.int b) => some (a - b)
  | _, _ => none

/-- `packet.get('channel', 0)` (an int when present). -/
def pktChannel (pkt : PyDict) : Int :=
  match pkt.lookup "channel" with
  | some (.int n) => n
  | _ => 0

/-- `packet.get('id')` — the Meshtastic protocol packet id (an int when
present). -/
def pktPid (pkt : PyDict) : Option Int :=
  match pkt.lookup "id" with
  | some (.int n) => some n
  | _ => none

def pktSnr (pkt : PyDict) : Option Int :=
  match pkt.lookup "rxSnr" with
  | some (.int n) => some n
  | _ => none

def pktRssi (pkt : PyDict) : Option Int :=
  match pkt.lookup "rxRssi" with
  | some (.int n) => some n
  | _ => none

/-- `1 if packet.get('_tx') else 0`. -/
def pktIsTx (pkt : PyDict) : Bool := pyTruthy ((pkt.lookup "_tx").getD .none)

/-- `packet.get('_delivered')` (the app only ever sets it to a bool). -/
def pktDelivered (pkt : PyDict) : Option Bool :=
  match pkt.lookup "_delivered" with
  | some (.bool b) => some b
  | _ => none

/-- The row `store_packet` inserts: every column is the canonical
(primitive-serialized) form of the corresponding part of the packet record. -/
def mkPacketRow (pkt : PyDict) (ts : Int) (s : Storage) : PacketRow :=
  { id := s.nextPacketId
    timestamp := ts
    packet_id := pktPid pkt
    from_node := format_node_id (pktFrom pkt)
    to_node := format_node_id (pktTo pkt)
    channel := pktChannel pkt
    portnum := pktPortnum pkt
    payload := jsonSerializable (.dict (pktDecoded pkt))
    raw_packet := jsonSerializable (.dict pkt)
    snr := pktSnr pkt
    rssi := pktRssi pkt
    hops := pktHops pkt
    is_tx := pktIsTx pkt
    delivered := pktDelivered pkt
    error_reason := none }

/-- `LogStorage.store_packet` (storage.py:171): serialize and insert one row,
returning the new rowid. -/
def store_packet (pkt : PyDict) (ts : Int) (s : Storage) : Nat × Storage :=
  (s.nextPacketId,
    { s with packets := s.packets ++ [mkPacketRow pkt ts s], nextPacketId := s.nextPacketId + 1 })

/-- The per-row effect of the SQL
`UPDATE packets SET delivered = ?, error_reason = ? WHERE packet_id = ? AND is_tx = 1`. -/
def deliveryUpdateRow (packet_id : Int) (delivered : Bool) (error_reason : Option String)
    (r : PacketRow) : PacketRow :=
  if r.packet_id == some packet_id && r.is_tx then
    { r with delivered := some delivered, error_reason := error_reason }
  else r

/-- `LogStorage.update_delivery_status` (storage.py:239). -/
def update_delivery_status (packet_id : Int) (delivered : Bool) (error_reason : Option String)
    (s : Storage) : Storage :=
  { s with packets := s.packets.map (deliveryUpdateRow packet_id delivered error_reason) }

/-- The delivery-marker restoration `_row_to_stored_message` performs on the
parsed `raw_packet` (storage.py:252-258). -/
def restoreRaw (is_tx : Bool) (delivered : Option Bool) (error_reason : Option String)
    (raw : JVal) : JVal :=
  if is_tx then
    let raw1 := objSet raw "_tx" (.bool true)
    match delivered with
    | some d =>
      let raw2 := objSet raw1 "_delivered" (.bool d)
      if !d then
        match error_reason with
        | some e => if e != "" then objSet raw2 "_error_reason" (.str e) else raw2
        | none => raw2
      else raw2
    | none => raw1
  else raw

/-- Python `not row['delivered']` on the tri-state column (NULL and 0 are
falsy). -/
def notDelivered : Option Bool → Bool
  | some true => false
  | _ => true

/-- `LogStorage._row_to_stored_message` (storage.py:247). -/
def rowToStoredMessage (r : PacketRow) : StoredMessage :=
  { id := r.id
    timestamp := r.timestamp
    packet_id := r.packet_id
    from_node := r.from_node
    to_node := r.to_node
    channel := r.channel
    portnum := r.portnum
    payload := r.payload
    raw_packet := restoreRaw r.is_tx r.delivered r.error_reason r.raw_packet
    snr := r.snr
    rssi := r.rssi
    hops := r.hops
    is_tx := r.is_tx
    delivered := r.delivered
    error_reason := if r.is_tx && notDelivered r.delivered then r.error_reason else none }

/-- `ORDER BY id DESC`, as a relation: `a` may precede `b` when `b.id ≤ a.id`. -/
def rowGE (a b : PacketRow) : Prop := b.id ≤ a.id

instance : DecidableRel rowGE := fun _ _ => Nat.decLe _ _
instance : IsTotal PacketRow rowGE := ⟨fun a b => Nat.le_total b.id a.id⟩
instance : IsTrans PacketRow rowGE := ⟨fun _ _ _ h1 h2 => Nat.le_trans h2 h1⟩

def sortDescById (rows : List PacketRow) : List PacketRow := rows.insertionSort rowGE

/-- The `AND id < ?` pagination clause added when `before_id` is given. -/
def beforeOk (before_id : Option Nat) (r : PacketRow) : Bool :=
  match before_id with
  | some b => r.id < b
  | none => true

/-- The shared query shape `SELECT * FROM packets WHERE <pred> [AND id < ?]
ORDER BY id DESC LIMIT ?`. -/
def sqlSelect (p : PacketRow → Bool) (limit : Nat) (before_id : Option Nat)
    (rows : List PacketRow) : List PacketRow :=
  (sortDescById (rows.filter (fun r => p r && beforeOk before_id r))).take limit

/-- `portnum IN ('TEXT_MESSAGE_APP', '1')`. -/
def isTextPort (pn : String) : Bool := pn == "TEXT_MESSAGE_APP" || pn == "1"

/-- `to_node IN ('^all', '!ffffffff')`. -/
def isBroadcastAddr (t : String) : Bool := t == "^all" || t == "!ffffffff"

def channelOk (channel : Option Int) (r : PacketRow) : Bool :=
  match channel with
  | some c => r.channel == c
  | none => true

/-- The WHERE clause of `get_text_messages`. -/
def textMsgPred (channel : Option Int) (broadcast_only : Bool) (r : PacketRow) : Bool :=
  isTextPort r.portnum && (!broadcast_only || isBroadcastAddr r.to_node) && channelOk channel r

/-- `LogStorage.get_text_messages` (storage.py:278): page of text messages,
fetched newest-first then reversed to chronological order. -/
def get_text_messages (channel : Option Int) (limit : Nat) (before_id : Option Nat)
    (broadcast_only : Bool) (s : Storage) : List StoredMessage :=
  ((sqlSelect (textMsgPred channel broadcast_only) limit before_id s.packets).reverse).map
    rowToStoredMessage

/-- The WHERE clause of `get_messages_for_node`. -/
def forNodePred (node_id_str : String) (channel : Option Int) (dm_only : Bool)
    (r : PacketRow) : Bool :=
  isTextPort r.portnum
    && (if dm_only then
          r.to_node == node_id_str
            || (r.from_node == node_id_str && !(isBroadcastAddr r.to_node))
        else r.from_node == node_id_str || r.to_node == node_id_str)
    && channelOk channel r

/-- `LogStorage.get_messages_for_node` (storage.py:319). -/
def get_messages_for_node (node_id : PyVal) (limit : Nat) (before_id : Option Nat)
    (channel : Option Int) (dm_only : Bool) (s : Storage) : List StoredMessage :=
  ((sqlSelect (forNodePred (format_node_id node_id) channel dm_only) limit before_id
    s.packets).reverse).map rowToStoredMessage

/-- The WHERE clause of `get_all_packets`; an empty filter list (like Python's
falsy `None`/`[]`) means no portnum restriction. -/
def allPacketsPred (portnum_filter : List String) (r : PacketRow) : Bool :=
  if portnum_filter.isEmpty then true else portnum_filter.contains r.portnum

/-- `LogStorage.get_all_packets` (storage.py:373). -/
def get_all_packets (limit : Nat) (before_id : Option Nat) (portnum_filter : List String)
    (s : Storage) : List StoredMessage :=
  ((sqlSelect (allPacketsPred portnum_filter) limit before_id s.packets).reverse).map
    rowToStoredMessage

/-- SQLite `LIKE`: `%` matches any sequence, `_` any single character, other
characters match with ASCII case folding.  The pattern is the first argument. -/
def likeMatch : List Char → List Char → Bool
  | [], s => s.isEmpty
  | c :: ps, s =>
    if c = '%' then s.tails.any fun t => likeMatch ps t
    else
      match s with
      | [] => false
      | d :: s2 =>
        if c = '_' then likeMatch ps s2
        else (asciiLower c == asciiLower d) && likeMatch ps s2

/-- The pattern `f"%{term}%"` built by the search queries. -/
def likePatternChars (term : String) : List Char := '%' :: (term.toList ++ ['%'])

/-- `column LIKE '%term%'` on a text value. -/
def likeTerm (term : String) (s : String) : Bool := likeMatch (likePatternChars term) s.toList

/-- `hay` starts with `needle`, with ASCII case folding. -/
def leadMatch : List Char → List Char → Bool
  | _, [] => true
  | [], _ :: _ => false
  | h :: hs, n :: ns => (asciiLower h == asciiLower n) && leadMatch hs ns

/-- `needle` is an ASCII-case-insensitive substring of `hay`. -/
def subMatch (hay needle : List Char) : Bool := hay.tails.any fun t => leadMatch t needle

/-- The term contains no SQL LIKE wildcard. -/
def noWildcard (term : String) : Prop := ∀ c ∈ term.toList, c ≠ '%' ∧ c ≠ '_'

instance (term : String) : Decidable (noWildcard term) := by
  unfold noWildcard; infer_instance

/-- `json_extract(col, '$.k')` on a stored JSON value. -/
def jGet (j : JVal) (k : String) : Option JVal :=
  match j with
  | .obj kvs => kvs.lookup k
  | _ => none

/-- `json_extract(col, '$.k1.k2')`. -/
def jPath2 (j : JVal) (k1 k2 : String) : Option JVal :=
  match jGet j k1 with
  | some v => jGet v k2
  | none => none

/-- `json_extract(...) LIKE '%term%'`: only a JSON string value can match; a
missing path yields SQL NULL, which never matches. -/
def likeOptStr (term : String) (v : Option JVal) : Bool :=
  match v with
  | some (.str s) => likeTerm term s
  | _ => false

/-- `LogStorage._find_nodes_by_name` (storage.py:405): node ids whose
`user.shortName` or `user.longName` matches the term. -/
def find_nodes_by_name (term : String) (s : Storage) : List String :=
  (s.nodes.filter (fun n =>
    likeOptStr term (jPath2 n.data "user" "shortName")
      || likeOptStr term (jPath2 n.data "user" "longName"))).map NodeRow.node_id

/-- The WHERE clause shared by `search_packets` and `count_search_results`:
text-message content match, or the packet is from/to a name-matching node. -/
def searchRowPred (term : String) (ids : List String) (r : PacketRow) : Bool :=
  (isTextPort r.portnum && likeOptStr term (jGet r.payload "text"))
    || ids.contains r.from_node || ids.contains r.to_node

/-- `LogStorage.search_packets` (storage.py:419).  Unlike the history queries
the result is returned newest-first (no final reversal). -/
def search_packets (term : String) (limit : Nat) (before_id : Option Nat)
    (s : Storage) : List StoredMessage :=
  (sqlSelect (searchRowPred term (find_nodes_by_name term s)) limit before_id s.packets).map
    rowToStoredMessage

/-- `LogStorage.count_search_results` (storage.py:474): `SELECT COUNT(*)` with
the same WHERE clause as `search_packets`, no paging. -/
def count_search_results (term : String) (s : Storage) : Nat :=
  (s.packets.filter (searchRowPred term (find_nodes_by_name term s))).length

/-- `LogStorage.store_node` (storage.py:515): `INSERT OR REPLACE INTO nodes`. -/
def store_node (node_id : PyVal) (data : PyVal) (now : Int) (s : Storage) : Storage :=
  let nid := format_node_id node_id
  let row : NodeRow := { node_id := nid, data := jsonSerializable data, last_updated := now }
  let nodes2 := cond (s.nodes.any (fun n => n.node_id == nid))
    (s.nodes.map (fun n => cond (n.node_id == nid) row n)) (s.nodes ++ [row])
  { s with nodes := nodes2 }

/-- The `WHERE message_db_id = ? AND reactor_node = ? AND emoji = ?` test. -/
def tripleMatches (m : Nat) (reactor emoji : String) (r : ReactionRow) : Bool :=
  r.message_db_id == m && r.reactor_node == reactor && r.emoji == emoji

/-- The row `store_reaction` inserts when the triple is not yet present. -/
def newReactionRow (message_db_id : Nat) (message_packet_id : Option Int)
    (reactor emoji : String) (ts : Int) (s : Storage) : ReactionRow :=
  { id := s.nextReactionId
    message_db_id := message_db_id
    message_packet_id := message_packet_id
    reactor_node := reactor
    emoji := emoji
    timestamp := ts }

/-- `LogStorage.store_reaction` (storage.py:585): toggle — delete the existing
`(message, reactor, emoji)` row and return `false`, or insert a new row and
return `true`. -/
def store_reaction (message_db_id : Nat) (message_packet_id : Option Int)
    (reactor_node : String) (emoji : String) (ts : Int) (s : Storage) : Bool × Storage :=
  let reactor := format_node_id (.str reactor_node)
  match s.reactions.find? (tripleMatches message_db_id reactor emoji) with
  | some ex => (false, { s with reactions := s.reactions.filter (fun r => r.id != ex.id) })
  | none =>
    (true, { s with
      reactions := s.reactions ++ [newReactionRow message_db_id message_packet_id reactor emoji ts s]
      nextReactionId := s.nextReactionId + 1 })

/-- The `(message, reactor, emoji)` triple is currently recorded. -/
def hasReaction (s : Storage) (m : Nat) (reactor : String) (emoji : String) : Bool :=
  s.reactions.any (tripleMatches m reactor emoji)

def reactionTriple (r : ReactionRow) : Nat × String × String :=
  (r.message_db_id, r.reactor_node, r.emoji)

/-- The invariants SQLite enforces on the `reactions` table: the primary key
is unique, ids stay below the AUTOINCREMENT counter, and the
`UNIQUE(message_db_id, reactor_node, emoji)` constraint holds. -/
def ReactionsWF (s : Storage) : Prop :=
  (s.reactions.map ReactionRow.id).Nodup
    ∧ (∀ r ∈ s.reactions, r.id < s.nextReactionId)
    ∧ (s.reactions.map reactionTriple).Nodup

/-- `LogStorage.find_message_by_packet_id` (storage.py:678):
`SELECT * FROM packets WHERE packet_id = ? LIMIT 1` (first row in scan
order). -/
def find_message_by_packet_id (packet_id : Int) (s : Storage) : Option StoredMessage :=
  (s.packets.find? (fun r => r.packet_id == some packet_id)).map rowToStoredMessage

/-- `LogStorage.store_reply_ref` (storage.py:695): resolve the parent by
protocol id if already stored, record the link, and return the parent's
database id (or `none`). -/
def store_reply_ref (reply_db_id : Nat) (parent_packet_id : Int) (ts : Int)
    (s : Storage) : Option Nat × Storage :=
  let parent := find_message_by_packet_id parent_packet_id s
  let parent_db_id := parent.map StoredMessage.id
  (parent_db_id, { s with
    replyRefs := s.replyRefs ++ [{
      id := s.nextReplyRefId
      reply_db_id := reply_db_id
      parent_db_id := parent_db_id
      parent_packet_id := parent_packet_id
      timestamp := ts }]
    nextReplyRefId := s.nextReplyRefId + 1 })

/-- The dict returned by `get_reply_ref`. -/
structure ReplyRefInfo where
  parent_db_id : Option Nat
  parent_packet_id : Int
  timestamp : Int
deriving DecidableEq

/-- `LogStorage.get_reply_ref` (storage.py:725): first `reply_refs` row for the
reply. -/
def get_reply_ref (reply_db_id : Nat) (s : Storage) : Option ReplyRefInfo :=
  (s.replyRefs.find? (fun r => r.reply_db_id == reply_db_id)).map fun r =>
    { parent_db_id := r.parent_db_id
      parent_packet_id := r.parent_packet_id
      timestamp := r.timestamp }

/-- `LogStorage.get_parent_message` (storage.py:779): prefer the resolved
`parent_db_id` (Python truthiness: 0 and NULL both fall through), else re-try
the protocol-id lookup. -/
def get_parent_message (reply_db_id : Nat) (s : Storage) : Option StoredMessage :=
  match get_reply_ref reply_db_id s with
  | none => none
  | some ref =>
    let viaDb : Option StoredMessage :=
      match ref.parent_db_id with
      | some pdb =>
        if pdb = 0 then none
        else (s.packets.find? (fun r => r.id == pdb)).map rowToStoredMessage
      | none => none
    match viaDb with
    | some m => some m
    | none => find_message_by_packet_id ref.parent_packet_id s

/-- `LogStorage.clear_messages` (storage.py:804): count the packets, delete
all reply refs, reactions and packets, and return the count. -/
def clear_messages (s : Storage) : Nat × Storage :=
  (s.packets.length, { s with packets := [], reactions := [], replyRefs := [] })

/-- Events published through the `Observable.notify` bus (state.py). -/
inductive MEvent where
  | node_updated (node_id : String)
  | nodes_imported
  | delivery_updated (packet : PyDict)
  | message_added
  | cleared

/-- `NodeStore` (state.py:150): the in-memory node map plus its optional
storage backend. -/
structure NodeStore where
  nodes : List (String × PyDict)
  storage : Option Storage

/-- Python `d[k] = v` on the node map. -/
def nodesSet (m : List (String × PyDict)) (k : String) (v : PyDict) :
    List (String × PyDict) :=
  alistSet m k v

/-- The value assigned to a key by the merge loop of `NodeStore.update_node`
(state.py:182-186): when the incoming and the existing values are both dicts,
the existing dict shallowly updated by the incoming one; otherwise the
incoming value. -/
def mergedValue (old : Option PyVal) (v : PyVal) : PyVal :=
  match v, old with
  | .dict e, some (.dict dOld) => .dict (dictUpdate dOld e)
  | v2, _ => v2

/-- The incoming value is a dict. -/
def isDict : PyVal → Bool
  | .dict _ => true
  | _ => false

/-- The existing value is present and is a dict. -/
def isDictOpt : Option PyVal → Bool
  | some (.dict _) => true
  | _ => false

/-- One iteration of the merge loop of `NodeStore.update_node`. -/
def mergeStep (acc : PyDict) (kv : String × PyVal) : PyDict :=
  dictSet acc kv.1 (mergedValue (acc.lookup kv.1) kv.2)

/-- The merge loop of `NodeStore.update_node` (state.py:182-186). -/
def mergeNode (node : PyDict) (data : PyDict) : PyDict :=
  data.foldl mergeStep node

/-- `NodeStore.update_node` (state.py:172): merge, derive `has_public_key`,
stamp `lastHeard`, persist, and emit `node_updated`. -/
def update_node (node_id : PyVal) (data : PyDict) (now : Int) (st : NodeStore) :
    NodeStore × List MEvent :=
  let nid := format_node_id node_id
  let base :=
    match st.nodes.lookup nid with
    | some n => n
    | none => [("num", node_id)]
  let merged := mergeNode base data
  let user : PyDict :=
    match data.lookup "user" with
    | some (.dict u) => u
    | _ => []
  let merged :=
    match user.lookup "publicKey" with
    | some pk => dictSet merged "has_public_key" (.bool (pyTruthy pk))
    | none => merged
  let merged := dictSet merged "lastHeard" (.int now)
  let storage2 := st.storage.map (fun sg => store_node (.str nid) (.dict merged) now sg)
  ({ nodes := nodesSet st.nodes nid merged, storage := storage2 },
    [MEvent.node_updated nid])

/-- The per-node transformation `NodeStore.import_nodes` applies before
assignment: rename `isFavorite` to `is_favorite` and derive
`has_public_key`. -/
def importTransform (nd : PyDict) : PyDict :=
  let c :=
    match nd.lookup "isFavorite" with
    | some v => dictSet (dictRemove nd "isFavorite") "is_favorite" v
    | none => nd
  let user : PyDict :=
    match c.lookup "user" with
    | some (.dict u) => u
    | _ => []
  match user.lookup "publicKey" with
  | some pk => dictSet c "has_public_key" (.bool (pyTruthy pk))
  | none => c

/-- `NodeStore.import_nodes` (state.py:211): assign each transformed node
wholesale (no merge, no `lastHeard` stamp, no persistence), then emit a single
`nodes_imported` event. -/
def import_nodes (input : List (PyVal × PyDict)) (st : NodeStore) :
    NodeStore × List MEvent :=
  let nodes2 := input.foldl (fun acc kv =>
    let nid := format_node_id ((kv.2.lookup "num").getD kv.1)
    nodesSet acc nid (importTransform kv.2)) st.nodes
  ({ st with nodes := nodes2 }, [MEvent.nodes_imported])

/-- The `PendingMessage` dataclass (state.py:12). -/
structure PendingMsg where
  request_id : Nat
  timestamp : Int
  packet : PyDict
  packet_id : Option Int

/-- One entry of the `MessageBuffer` deque. -/
structure BufferEntry where
  packet : PyDict
  timestamp : Int
  db_id : Option Nat

/-- `MessageBuffer` (state.py:247): bounded mirror of recent packets plus the
pending-delivery map and the optional storage backend. -/
structure MessageBuffer where
  messages : List BufferEntry
  maxSize : Nat
  pending : List (Nat × PendingMsg)
  storage : Option Storage

/-- `MessageBuffer.resolve_pending` (state.py:270): pop the pending entry,
mark the packet delivered/failed, persist the delivery update when a protocol
packet id was recorded (Python truthiness: id 0 is skipped), and emit
`delivery_updated`; an unknown `request_id` is a no-op returning `none`. -/
def resolve_pending (request_id : Nat) (success : Bool) (error_reason : Option String)
    (mb : MessageBuffer) : Option PyDict × MessageBuffer × List MEvent :=
  match mb.pending.lookup request_id with
  | some p =>
    let pkt := dictSet p.packet "_delivered" (.bool success)
    let pkt :=
      match error_reason with
      | some e => if e != "" then dictSet pkt "_error_reason" (.str e) else pkt
      | none => pkt
    let storage2 :=
      match mb.storage, p.packet_id with
      | some sg, some pid =>
        if pid = 0 then some sg else some (update_delivery_status pid success error_reason sg)
      | sg, _ => sg
    (some pkt,
      { mb with pending := mb.pending.filter (fun kv => kv.1 != request_id),
                storage := storage2 },
      [MEvent.delivery_updated pkt])
  | none => (none, mb, [])

/-- Extract the string out of a JSON string value. -/
def jStrOpt : JVal → Option String
  | .str s => some s
  | _ => none

/-- A stored broadcast text-message row with database id `i` (test fixture). -/
def pagerRow (i : Nat) : PacketRow :=
  { id := i
    timestamp := Int.ofNat i
    packet_id := none
    from_node := "!00000001"
    to_node := "^all"
    channel := 0
    portnum := "TEXT_MESSAGE_APP"
    payload := .obj [("portnum", .str "TEXT_MESSAGE_APP"), ("text", .str "m")]
    raw_packet := .obj []
    snr := none
    rssi := none
    hops := none
    is_tx := false
    delivered := none
    error_reason := none }

/-- A database holding ten text messages with ids 1..10 (test fixture). -/
def pagerS : Storage :=
  { packets := (List.range 10).map (fun i => pagerRow (i + 1))
    nextPacketId := 11
    nodes := []
    reactions := []
    nextReactionId := 1
    replyRefs := []
    nextReplyRefId := 1 }

/-- A database holding one telemetry packet and no nodes (test fixture). -/
def telemS : Storage :=
  { packets := [{
      id := 1
      timestamp := 5
      packet_id := some 42
      from_node := "!00000001"
      to_node := "^all"
      channel := 0
      portnum := "TELEMETRY_APP"
      payload := .obj [("portnum", .str "TELEMETRY_APP"),
        ("telemetry", .obj [("deviceMetrics", .obj [("batteryLevel", .int 80)])])]
      raw_packet := .obj []
      snr := none
      rssi := none
      hops := none
      is_tx := false
      delivered := none
      error_reason := none }]
    nextPacketId := 2
    nodes := []
    reactions := []
    nextReactionId := 1
    replyRefs := []
    nextReplyRefId := 1 }

/-- A stored text message reading `hello` (test fixture). -/
def helloRow : PacketRow :=
  { id := 1
    timestamp := 5
    packet_id := none
    from_node := "!00000001"
    to_node := "^all"
    channel := 0
    portnum := "TEXT_MESSAGE_APP"
    payload := .obj [("portnum", .str "TEXT_MESSAGE_APP"), ("text", .str "hello")]
    raw_packet := .obj []
    snr := none
    rssi := none
    hops := none
    is_tx := false
    delivered := none
    error_reason := none }

/-- A database holding one text message reading `hello` and no nodes (test
fixture). -/
def searchWildS : Storage :=
  { packets := [helloRow]
    nextPacketId := 2
    nodes := []
    reactions := []
    nextReactionId := 1
    replyRefs := []
    nextReplyRefId := 1 }

/-- First packet carrying protocol packet id 7 (test fixture). -/
def cexPkt1 : PyDict :=
  [("id", .int 7),
   ("decoded", .dict [("portnum", .str "TEXT_MESSAGE_APP"), ("text", .str "first")])]

/-- Second, different packet carrying the same protocol packet id 7 (test
fixture). -/
def cexPkt2 : PyDict :=
  [("id", .int 7),
   ("decoded", .dict [("portnum", .str "TEXT_MESSAGE_APP"), ("text", .str "second")])]

/-- A node store already holding a node with a position latitude (test
fixture). -/
def importStore : NodeStore :=
  { nodes := [("!n1", [("position", .dict [("lat", .int 1)])])], storage := none }

/-- A partial node update carrying only a position longitude (test fixture). -/
def importData : PyDict := [("position", .dict [("lon", .int 2)])]

section AListLemmas

variable {β : Type}

lemma alist_lookup_of_any_false (d : List (String × β)) (k : String)
    (h : d.any (fun kv => kv.1 == k) = false) : d.lookup k = none := by
  induction d with
  | nil => rfl
  | cons a t ih =>
    simp only [List.any_cons, Bool.or_eq_false_iff] at h
    have hk : (k == a.1) = false := by
      cases hak : (a.1 == k) with
      | true => exact absurd hak (by simp [h.1])
      | false =>
        have : a.1 ≠ k := by simpa using hak
        simpa using (Ne.symm this)
    simp [List.lookup, hk, ih h.2]

lemma alist_any_of_lookup_some (d : List (String × β)) (k : String) (v : β)
    (h : d.lookup k = some v) : d.any (fun kv => kv.1 == k) = true := by
  cases hany : d.any (fun kv => kv.1 == k) with
  | true => rfl
  | false => rw [alist_lookup_of_any_false d k hany] at h; exact absurd h (by simp)

lemma lookup_map_set (d : List (String × β)) (k : String) (v : β)
    (h : d.any (fun kv => kv.1 == k) = true) :
    (d.map (fun kv => cond (kv.1 == k) (k, v) kv)).lookup k = some v := by
  induction d with
  | nil => simp at h
  | cons a t ih =>
    simp only [List.any_cons, Bool.or_eq_true] at h
    by_cases hak : a.1 = k
    · have h1 : (a.1 == k) = true := by simpa using hak
      simp [List.lookup, h1]
    · have h1 : (a.1 == k) = false := by simpa using hak
      have h2 : (k == a.1) = false := by simpa using (Ne.symm hak)
      have ht : t.any (fun kv => kv.1 == k) = true := by
        rcases h with h | h
        · exact absurd h (by simp [h1])
        · exact h
      simp [List.lookup, h1, h2, ih ht]

lemma lookup_map_set_ne (d : List (String × β)) (k : String) (v : β) (k2 : String)
    (h : k2 ≠ k) :
    (d.map (fun kv => cond (kv.1 == k) (k, v) kv)).lookup k2 = d.lookup k2 := by
  induction d with
  | nil => rfl
  | cons a t ih =>
    by_cases hak : a.1 = k
    · have h1 : (a.1 == k) = true := by simpa using hak
      have hk2 : (k2 == k) = false := by simpa using h
      have hk2a : (k2 == a.1) = false := by simpa using (hak ▸ h)
      simp [List.lookup, h1, hk2, hk2a, ih]
    · have h1 : (a.1 == k) = false := by simpa using hak
      by_cases hk2a : k2 = a.1
      · have h2 : (k2 == a.1) = true := by simpa using hk2a
        simp [List.lookup, h1, h2]
      · have h2 : (k2 == a.1) = false := by simpa using hk2a
        simp [List.lookup, h1, h2, ih]

lemma lookup_append_of_none (d e : List (String × β)) (k : String)
    (h : d.lookup k = none) : (d ++ e).lookup k = e.lookup k := by
  induction d with
  | nil => rfl
  | cons a t ih =>
    cases hk : (k == a.1) with
    | true => simp [List.lookup, hk] at h
    | false =>
      simp only [List.lookup, hk] at h
      simpa [List.lookup, hk] using ih h

lemma alistSet_lookup_self (d : List (String × β)) (k : String) (v : β) :
    (alistSet d k v).lookup k = some v := by
  unfold alistSet
  cases hany : d.any (fun kv => kv.1 == k) with
  | true => simpa using lookup_map_set d k v hany
  | false =>
    have hnone := alist_lookup_of_any_false d k hany
    simp only [cond_false]
    rw [lookup_append_of_none d _ k hnone]
    simp [List.lookup]

lemma alistSet_lookup_ne (d : List (String × β)) (k : String) (v : β) (k2 : String)
    (h : k2 ≠ k) : (alistSet d k v).lookup k2 = d.lookup k2 := by
  unfold alistSet
  cases hany : d.any (fun kv => kv.1 == k) with
  | true => simpa using lookup_map_set_ne d k v k2 h
  | false =>
    simp only [cond_false]
    have hk2 : (k2 == k) = false := by simpa using h
    induction d with
    | nil => simp [List.lookup, hk2]
    | cons a t ih =>
      simp only [List.any_cons, Bool.or_eq_false_iff] at hany
      cases hk : (k2 == a.1) with
      | true => simp [List.lookup, hk]
      | false => simpa [List.lookup, hk] using ih hany.2

lemma map_id_of_no_key (d : List (String × β)) (k : String) (v : β)
    (h : ∀ kv ∈ d, kv.1 ≠ k) :
    d.map (fun kv => cond (kv.1 == k) (k, v) kv) = d := by
  induction d with
  | nil => rfl
  | cons a t ih =>
    have ha : (a.1 == k) = false := by simpa using h a (by simp)
    simp only [List.map_cons, ha, cond_false, List.cons.injEq]
    exact ⟨by simp, ih (fun kv hkv => h kv (by simp [hkv]))⟩

lemma alistSet_self (d : List (String × β)) (k : String) (v : β)
    (h : d.lookup k = some v) (hnd : (d.map Prod.fst).Nodup) : alistSet d k v = d := by
  unfold alistSet
  rw [alist_any_of_lookup_some d k v h]
  simp only [cond_true]
  induction d with
  | nil => rfl
  | cons a t ih =>
    obtain ⟨a1, a2⟩ := a
    simp only [List.map_cons, List.nodup_cons] at hnd
    by_cases hak : a1 = k
    · have hk : (k == a1) = true := by simpa using (Eq.symm hak)
      simp only [List.lookup, hk] at h
      have hv : v = a2 := by simpa using h.symm
      have hrest : ∀ kv ∈ t, kv.1 ≠ k := by
        intro kv hkv hc
        exact hnd.1 (hak ▸ hc ▸ List.mem_map_of_mem Prod.fst hkv)
      have h1 : ((a1, a2).1 == k) = true := by simpa using hak
      simp only [List.map_cons, h1, cond_true, List.cons.injEq]
      exact ⟨by simp [hak, hv], map_id_of_no_key t k v hrest⟩
    · have hk : (k == a1) = false := by simpa using (Ne.symm hak)
      simp only [List.lookup, hk] at h
      have h1 : ((a1, a2).1 == k) = false := by simpa using hak
      simp only [List.map_cons, h1, cond_false, List.cons.injEq]
      exact ⟨by simp, ih h hnd.2⟩

end AListLemmas

lemma jsonKVs_lookup (kvs : PyDict) (k : String) :
    (jsonSerializableKVs kvs).lookup k = (kvs.lookup k).map jsonSerializable := by
  induction kvs with
  | nil => rfl
  | cons a t ih =>
    cases hk : (k == a.1) with
    | true => simp [jsonSerializableKVs, List.lookup, hk]
    | false => simpa [jsonSerializableKVs, List.lookup, hk] using ih

lemma jsonKVs_keys (kvs : PyDict) :
    (jsonSerializableKVs kvs).map Prod.fst = kvs.map Prod.fst := by
  induction kvs with
  | nil => rfl
  | cons a t ih => simp [jsonSerializableKVs, ih]

/-- Claim C7: resolving an unknown `request_id` returns `none`, raises
nothing, emits no `delivery_updated` event, and leaves the pending map, the
message buffer and the persistent store unchanged. -/
theorem claim_C7_resolve_unknown (mb : MessageBuffer) (request_id : Nat) (success : Bool)
    (error_reason : Option String) (h : mb.pending.lookup request_id = none) :
    resolve_pending request_id success error_reason mb = (none, mb, []) := by
  unfold resolve_pending
  rw [h]

theorem claim_C7_witness :
    (([] : List (Nat × PendingMsg)).lookup 5 = none) ∧
    resolve_pending 5 true none
        { messages := [], maxSize := 1000, pending := [], storage := none }
      = (none, { messages := [], maxSize := 1000, pending := [], storage := none }, []) :=
  ⟨rfl, claim_C7_resolve_unknown _ 5 true none rfl⟩

/-- Claim C8: `clear_messages` returns a count equal to the number of packet
rows actually deleted, deletes all packets, reactions and reply refs, and
leaves every row of the nodes table unchanged. -/
theorem claim_C8_clear_messages (s : Storage) :
    (clear_messages s).1 = s.packets.length
      ∧ (clear_messages s).2.packets = []
      ∧ (clear_messages s).2.reactions = []
      ∧ (clear_messages s).2.replyRefs = []
      ∧ (clear_messages s).2.nodes = s.nodes
      ∧ (clear_messages s).1 = s.packets.length - (clear_messages s).2.packets.length :=
  ⟨rfl, rfl, rfl, rfl, rfl, by simp [clear_messages]⟩

/-- Claim C10: `update_delivery_status` touches only the `delivered` and
`error_reason` columns, only on rows whose `packet_id` matches and whose
`is_tx` flag is set; every inbound row and every other column is unchanged,
and every matching outbound row is updated, not just one. -/
theorem claim_C10_delivery_frame (s : Storage) (packet_id : Int) (delivered : Bool)
    (error_reason : Option String) :
    (update_delivery_status packet_id delivered error_reason s).nodes = s.nodes
    ∧ (update_delivery_status packet_id delivered error_reason s).reactions = s.reactions
    ∧ (update_delivery_status packet_id delivered error_reason s).replyRefs = s.replyRefs
    ∧ (update_delivery_status packet_id delivered error_reason s).packets.length
        = s.packets.length
    ∧ (∀ i : Nat, (update_delivery_status packet_id delivered error_reason s).packets[i]?
        = (s.packets[i]?).map (deliveryUpdateRow packet_id delivered error_reason))
    ∧ (∀ r : PacketRow,
        (deliveryUpdateRow packet_id delivered error_reason r).id = r.id
        ∧ (deliveryUpdateRow packet_id delivered error_reason r).timestamp = r.timestamp
        ∧ (deliveryUpdateRow packet_id delivered error_reason r).packet_id = r.packet_id
        ∧ (deliveryUpdateRow packet_id delivered error_reason r).from_node = r.from_node
        ∧ (deliveryUpdateRow packet_id delivered error_reason r).to_node = r.to_node
        ∧ (deliveryUpdateRow packet_id delivered error_reason r).channel = r.channel
        ∧ (deliveryUpdateRow packet_id delivered error_reason r).portnum = r.portnum
        ∧ (deliveryUpdateRow packet_id delivered error_reason r).payload = r.payload
        ∧ (deliveryUpdateRow packet_id delivered error_reason r).raw_packet = r.raw_packet
        ∧ (deliveryUpdateRow packet_id delivered error_reason r).snr = r.snr
        ∧ (deliveryUpdateRow packet_id delivered error_reason r).rssi = r.rssi
        ∧ (deliveryUpdateRow packet_id delivered error_reason r).hops = r.hops
        ∧ (deliveryUpdateRow packet_id delivered error_reason r).is_tx = r.is_tx
        ∧ (r.packet_id = some packet_id ∧ r.is_tx = true →
            (deliveryUpdateRow packet_id delivered error_reason r).delivered = some delivered
            ∧ (deliveryUpdateRow packet_id delivered error_reason r).error_reason
                = error_reason)
        ∧ (¬(r.packet_id = some packet_id ∧ r.is_tx = true) →
            deliveryUpdateRow packet_id delivered error_reason r = r)) := by
  refine ⟨rfl, rfl, rfl, by simp [update_delivery_status], ?_, ?_⟩
  · intro i
    simp [update_delivery_status, List.getElem?_map]
  · intro r
    by_cases hc : r.packet_id = some packet_id ∧ r.is_tx = true
    · have hb : (r.packet_id == some packet_id && r.is_tx) = true := by
        simp [hc.1, hc.2]
      refine ⟨?_, ?_, ?_, ?_, ?_, ?_, ?_, ?_, ?_, ?_, ?_, ?_, ?_, ?_, ?_⟩ <;>
        simp [deliveryUpdateRow, hb, hc]
    · have hb : (r.packet_id == some packet_id && r.is_tx) = false := by
        cases hpid : (r.packet_id == some packet_id) with
        | false => simp
        | true =>
          cases htx : r.is_tx with
          | false => simp
          | true => exact absurd ⟨by simpa using hpid, htx⟩ hc
      refine ⟨?_, ?_, ?_, ?_, ?_, ?_, ?_, ?_, ?_, ?_, ?_, ?_, ?_, ?_, ?_⟩ <;>
        simp [deliveryUpdateRow, hb, hc]

theorem claim_C10_witness :
    ((pagerRow 1).packet_id = some 9 ∧ (pagerRow 1).is_tx = true → False) ∧
    deliveryUpdateRow 9 true none (pagerRow 1) = pagerRow 1 :=
  have h := (claim_C10_delivery_frame pagerS 9 true none).2.2.2.2.2 (pagerRow 1)
  ⟨fun hc => by simp [pagerRow] at hc, h.2.2.2.2.2.2.2.2.2.2.2.2.2.2
    (fun hc => by simp [pagerRow] at hc)⟩

lemma alist_lookup_of_not_mem {β : Type} (d : List (String × β)) (k : String)
    (h : k ∉ d.map Prod.fst) : d.lookup k = none := by
  induction d with
  | nil => rfl
  | cons a t ih =>
    simp only [List.map_cons, List.mem_cons, not_or] at h
    have hk : (k == a.1) = false := by simpa using h.1
    simpa [List.lookup, hk] using ih h.2

lemma mergeStep_lookup_ne (acc : PyDict) (kv : String × PyVal) (k2 : String)
    (h : k2 ≠ kv.1) : (mergeStep acc kv).lookup k2 = acc.lookup k2 :=
  alistSet_lookup_ne acc kv.1 (mergedValue (acc.lookup kv.1) kv.2) k2 h

lemma mergeNode_lookup_of_absent (data : PyDict) (node : PyDict) (k2 : String)
    (h : data.lookup k2 = none) : (mergeNode node data).lookup k2 = node.lookup k2 := by
  induction data generalizing node with
  | nil => rfl
  | cons a t ih =>
    have hk : (k2 == a.1) = false := by
      cases hk : (k2 == a.1) with
      | true => simp [List.lookup, hk] at h
      | false => rfl
    have ht : t.lookup k2 = none := by simpa [List.lookup, hk] using h
    have hne : k2 ≠ a.1 := by simpa using hk
    show (mergeNode (mergeStep node a) t).lookup k2 = node.lookup k2
    rw [ih (mergeStep node a) ht]
    exact mergeStep_lookup_ne node a k2 hne

lemma mergeNode_lookup (data : PyDict) (node : PyDict) (k : String) (v : PyVal)
    (hnd : (data.map Prod.fst).Nodup) (hk : data.lookup k = some v) :
    (mergeNode node data).lookup k = some (mergedValue (node.lookup k) v) := by
  induction data generalizing node with
  | nil => exact absurd hk (by simp [List.lookup])
  | cons a t ih =>
    obtain ⟨a1, a2⟩ := a
    simp only [List.map_cons, List.nodup_cons] at hnd
    by_cases hka : k = a1
    · have hbeq : (k == a1) = true := by simpa using hka
      have hv : a2 = v := by simpa [List.lookup, hbeq] using hk
      have ht : t.lookup k = none := alist_lookup_of_not_mem t k (hka ▸ hnd.1)
      show (mergeNode (mergeStep node (a1, a2)) t).lookup k = _
      rw [mergeNode_lookup_of_absent t _ k ht]
      show (dictSet node a1 (mergedValue (node.lookup a1) a2)).lookup k
        = some (mergedValue (node.lookup k) v)
      rw [hka]
      exact (alistSet_lookup_self node a1 _).trans (by rw [hv])
    · have hbeq : (k == a1) = false := by simpa using hka
      have ht : t.lookup k = some v := by simpa [List.lookup, hbeq] using hk
      show (mergeNode (mergeStep node (a1, a2)) t).lookup k = _
      rw [ih _ hnd.2 ht, mergeStep_lookup_ne node (a1, a2) k hka]

lemma dictUpdate_lookup_of_absent (e : PyDict) (d : PyDict) (k2 : String)
    (h : e.lookup k2 = none) : (dictUpdate d e).lookup k2 = d.lookup k2 := by
  induction e generalizing d with
  | nil => rfl
  | cons a t ih =>
    have hk : (k2 == a.1) = false := by
      cases hk : (k2 == a.1) with
      | true => simp [List.lookup, hk] at h
      | false => rfl
    have ht : t.lookup k2 = none := by simpa [List.lookup, hk] using h
    have hne : k2 ≠ a.1 := by simpa using hk
    show (dictUpdate (dictSet d a.1 a.2) t).lookup k2 = d.lookup k2
    rw [ih _ ht]
    exact alistSet_lookup_ne d a.1 a.2 k2 hne

lemma dictUpdate_lookup (e : PyDict) (d : PyDict) (k : String) (v : PyVal)
    (hnd : (e.map Prod.fst).Nodup) (hk : e.lookup k = some v) :
    (dictUpdate d e).lookup k = some v := by
  induction e generalizing d with
  | nil => exact absurd hk (by simp [List.lookup])
  | cons a t ih =>
    obtain ⟨a1, a2⟩ := a
    simp only [List.map_cons, List.nodup_cons] at hnd
    by_cases hka : k = a1
    · have hbeq : (k == a1) = true := by simpa using hka
      have hv : a2 = v := by simpa [List.lookup, hbeq] using hk
      have ht : t.lookup k = none := alist_lookup_of_not_mem t k (hka ▸ hnd.1)
      show (dictUpdate (dictSet d a1 a2) t).lookup k = some v
      rw [dictUpdate_lookup_of_absent t _ k ht, hka]
      exact (alistSet_lookup_self d a1 a2).trans (by rw [hv])
    · have hbeq : (k == a1) = false := by simpa using hka
      have ht : t.lookup k = some v := by simpa [List.lookup, hbeq] using hk
      show (dictUpdate (dictSet d a1 a2) t).lookup k = some v
      exact ih _ hnd.2 ht

/-- Claim C4: in `NodeStore.update_node`, incoming scalar keys overwrite, a key
whose existing and incoming values are both dicts is merged key-by-key one
level deep (preserving nested attributes absent from the incoming partial
update), all other keys are replaced wholesale; merging
`{"position": {"lat": 1}}` then `{"position": {"lon": 2}}` yields
`{"lat": 1, "lon": 2}`. -/
theorem claim_C4_node_merge (node data : PyDict) (k : String) (v : PyVal)
    (hnd : (data.map Prod.fst).Nodup) (hk : data.lookup k = some v) :
    ((mergeNode node data).lookup k = some (mergedValue (node.lookup k) v))
    ∧ (∀ (e dOld : PyDict), mergedValue (some (.dict dOld)) (.dict e)
        = .dict (dictUpdate dOld e))
    ∧ (∀ (old : Option PyVal) (v2 : PyVal), (isDict v2 && isDictOpt old) = false →
        mergedValue old v2 = v2)
    ∧ (∀ k2, data.lookup k2 = none → (mergeNode node data).lookup k2 = node.lookup k2)
    ∧ (∀ (dOld e : PyDict) (k2 : String), e.lookup k2 = none →
        (dictUpdate dOld e).lookup k2 = dOld.lookup k2)
    ∧ (∀ (dOld e : PyDict) (k2 : String) (v2 : PyVal), (e.map Prod.fst).Nodup →
        e.lookup k2 = some v2 → (dictUpdate dOld e).lookup k2 = some v2)
    ∧ (((update_node (.str "!n1") importData 200
          (update_node (.str "!n1") [("position", .dict [("lat", .int 1)])] 100
            { nodes := [], storage := none }).1).1.nodes.lookup "!n1").map
        (fun nd => nd.lookup "position")
        = some (some (.dict [("lat", .int 1), ("lon", .int 2)]))) := by
  refine ⟨mergeNode_lookup data node k v hnd hk, fun e dOld => rfl, ?_,
    fun k2 h => mergeNode_lookup_of_absent data node k2 h,
    fun dOld e k2 h => dictUpdate_lookup_of_absent e dOld k2 h,
    fun dOld e k2 v2 h1 h2 => dictUpdate_lookup e dOld k2 v2 h1 h2, rfl⟩
  intro old v2 h
  unfold mergedValue
  split
  · simp [isDict, isDictOpt] at h
  · rfl

theorem claim_C4_witness :
    (([("position", PyVal.dict [("lon", .int 2)])].map Prod.fst).Nodup
      ∧ [("position", PyVal.dict [("lon", .int 2)])].lookup "position"
          = some (.dict [("lon", .int 2)]))
    ∧ (mergeNode [("position", PyVal.dict [("lat", .int 1)])]
        [("position", PyVal.dict [("lon", .int 2)])]).lookup "position"
      = some (mergedValue ([("position", PyVal.dict [("lat", .int 1)])].lookup "position")
          (.dict [("lon", .int 2)])) :=
  ⟨⟨by decide, rfl⟩,
    (claim_C4_node_merge [("position", PyVal.dict [("lat", .int 1)])]
      [("position", PyVal.dict [("lon", .int 2)])] "position" (.dict [("lon", .int 2)])
      (by decide) rfl).1⟩

/-- Claim C9 fails on the code: `NodeStore.import_nodes` does not apply the
same per-node processing as `NodeStore.update_node`.  Importing a node whose
data carries only `position.lon` over a stored node holding `position.lat`
replaces the position wholesale (the latitude is lost), while the single-node
merge would have preserved it. -/
theorem claim_C9_counterexample :
    (((import_nodes [(.str "!n1", importData)] importStore).1.nodes.lookup "!n1").map
        (fun nd => nd.lookup "position") = some (some (.dict [("lon", .int 2)])))
    ∧ (((update_node (.str "!n1") importData 300 importStore).1.nodes.lookup "!n1").map
        (fun nd => nd.lookup "position")
        = some (some (.dict [("lat", .int 1), ("lon", .int 2)])))
    ∧ (PyVal.dict [("lon", .int 2)] ≠ .dict [("lat", .int 1), ("lon", .int 2)]) := by
  refine ⟨rfl, rfl, ?_⟩
  intro h
  injection h with h1
  simp at h1

/-- Claim C9 (amended): `NodeStore.import_nodes` assigns each incoming node
wholesale after renaming `isFavorite` to `is_favorite` and deriving
`has_public_key` — it does not merge with existing attributes, does not stamp
`lastHeard`, and does not persist to storage; it emits exactly one
`nodes_imported` event for the whole import and no `node_updated` events. -/
theorem claim_C9_import_amended (st : NodeStore) (input : List (PyVal × PyDict)) :
    ((import_nodes input st).2 = [MEvent.nodes_imported])
    ∧ (∀ e ∈ (import_nodes input st).2, ∀ nid, e ≠ MEvent.node_updated nid)
    ∧ ((import_nodes input st).1.storage = st.storage)
    ∧ (∀ (key : PyVal) (nd : PyDict),
        (import_nodes [(key, nd)] st).1.nodes.lookup
            (format_node_id ((nd.lookup "num").getD key))
          = some (importTransform nd)) := by
  refine ⟨rfl, ?_, rfl, ?_⟩
  · intro e he nid
    have : e = MEvent.nodes_imported := by simpa [import_nodes] using he
    subst this
    intro hcon
    exact MEvent.noConfusion hcon
  · intro key nd
    exact alistSet_lookup_self st.nodes _ (importTransform nd)

theorem claim_C9_witness :
    (MEvent.nodes_imported ∈ (import_nodes [(.str "!n1", importData)] importStore).2)
    ∧ (MEvent.nodes_imported ≠ MEvent.node_updated "!n1") :=
  ⟨by rw [(claim_C9_import_amended importStore [(.str "!n1", importData)]).1]; simp,
    (claim_C9_import_amended importStore [(.str "!n1", importData)]).2.1
      MEvent.nodes_imported
      (by rw [(claim_C9_import_amended importStore [(.str "!n1", importData)]).1]; simp)
      "!n1"⟩

lemma format_node_id_str (s : String) : format_node_id (.str s) = s := rfl

lemma tripleMatches_iff (m : Nat) (re em : String) (r : ReactionRow) :
    tripleMatches m re em r = true ↔ reactionTriple r = (m, re, em) := by
  simp [tripleMatches, reactionTriple, Prod.ext_iff, and_assoc]

lemma find_none_of_has_false (s : Storage) (m : Nat) (re em : String)
    (h : hasReaction s m re em = false) :
    s.reactions.find? (tripleMatches m re em) = none := by
  rw [List.find?_eq_none]
  intro x hx hmx
  have hany : s.reactions.any (tripleMatches m re em) = true :=
    List.any_eq_true.mpr ⟨x, hx, hmx⟩
  have hf : s.reactions.any (tripleMatches m re em) = false := h
  rw [hf] at hany
  exact Bool.noConfusion hany

lemma store_reaction_of_not_has (s : Storage) (m : Nat) (mp : Option Int)
    (re em : String) (ts : Int) (h : hasReaction s m re em = false) :
    store_reaction m mp re em ts s = (true, { s with
      reactions := s.reactions ++ [newReactionRow m mp re em ts s]
      nextReactionId := s.nextReactionId + 1 }) := by
  unfold store_reaction
  simp only [format_node_id_str, find_none_of_has_false s m re em h]

lemma store_reaction_of_find (s : Storage) (m : Nat) (mp : Option Int)
    (re em : String) (ts : Int) (ex : ReactionRow)
    (hfind : s.reactions.find? (tripleMatches m re em) = some ex) :
    store_reaction m mp re em ts s
      = (false, { s with reactions := s.reactions.filter (fun r => r.id != ex.id) }) := by
  unfold store_reaction
  simp only [format_node_id_str, hfind]

lemma toggle_char_not_has (s : Storage) (m : Nat) (mp : Option Int)
    (re em : String) (ts : Int) (h : hasReaction s m re em = false) :
    (store_reaction m mp re em ts s).1 = true
    ∧ hasReaction (store_reaction m mp re em ts s).2 m re em = true
    ∧ (∀ m2 re2 em2, (m2, re2, em2) ≠ ((m, re, em) : Nat × String × String) →
        hasReaction (store_reaction m mp re em ts s).2 m2 re2 em2
          = hasReaction s m2 re2 em2) := by
  rw [store_reaction_of_not_has s m mp re em ts h]
  refine ⟨rfl, ?_, ?_⟩
  · simp [hasReaction, List.any_append, tripleMatches, newReactionRow]
  · intro m2 re2 em2 hne
    have hnew : tripleMatches m2 re2 em2 (newReactionRow m mp re em ts s) = false := by
      cases htm : tripleMatches m2 re2 em2 (newReactionRow m mp re em ts s) with
      | false => rfl
      | true =>
        have := (tripleMatches_iff m2 re2 em2 _).mp htm
        simp [newReactionRow, reactionTriple] at this
        exact absurd (by simp [this.1, this.2.1, this.2.2]) hne.symm
    simp [hasReaction, List.any_append, hnew]

lemma toggle_char_has (s : Storage) (m : Nat) (mp : Option Int)
    (re em : String) (ts : Int) (wf : ReactionsWF s) (h : hasReaction s m re em = true) :
    (store_reaction m mp re em ts s).1 = false
    ∧ hasReaction (store_reaction m mp re em ts s).2 m re em = false
    ∧ (∀ m2 re2 em2, (m2, re2, em2) ≠ ((m, re, em) : Nat × String × String) →
        hasReaction (store_reaction m mp re em ts s).2 m2 re2 em2
          = hasReaction s m2 re2 em2) := by
  obtain ⟨x, hx, hpx⟩ := List.any_eq_true.mp h
  obtain ⟨ex, hfind⟩ := Option.isSome_iff_exists.mp (List.find?_isSome.mpr ⟨x, hx, hpx⟩)
  have hex_mem : ex ∈ s.reactions := List.mem_of_find?_eq_some hfind
  have hex_triple : reactionTriple ex = (m, re, em) :=
    (tripleMatches_iff m re em ex).mp (List.find?_some hfind)
  have hinj := List.inj_on_of_nodup_map wf.2.2
  rw [store_reaction_of_find s m mp re em ts ex hfind]
  refine ⟨rfl, ?_, ?_⟩
  · rw [hasReaction]
    rw [List.any_eq_false]
    intro r hr
    rw [List.mem_filter] at hr
    intro hmr
    have hr_triple : reactionTriple r = (m, re, em) := (tripleMatches_iff m re em r).mp hmr
    have : r = ex := hinj hr.1 hex_mem (hr_triple.trans hex_triple.symm)
    rw [this] at hr
    simp at hr
  · intro m2 re2 em2 hne
    rw [Bool.eq_iff_iff]
    constructor
    · intro h2
      obtain ⟨r, hr, hpr⟩ := List.any_eq_true.mp h2
      rw [List.mem_filter] at hr
      exact List.any_eq_true.mpr ⟨r, hr.1, hpr⟩
    · intro h2
      obtain ⟨r, hr, hpr⟩ := List.any_eq_true.mp h2
      have hr_triple : reactionTriple r = (m2, re2, em2) := (tripleMatches_iff _ _ _ r).mp hpr
      have hid : r.id ≠ ex.id := by
        have hidinj := List.inj_on_of_nodup_map wf.1
        intro hc
        have : r = ex := hidinj hr hex_mem hc
        rw [this, hex_triple] at hr_triple
        exact hne hr_triple.symm
      refine List.any_eq_true.mpr ⟨r, List.mem_filter.mpr ⟨hr, by simpa using hid⟩, hpr⟩

lemma toggle_preserves_WF (s : Storage) (m : Nat) (mp : Option Int)
    (re em : String) (ts : Int) (wf : ReactionsWF s) :
    ReactionsWF (store_reaction m mp re em ts s).2 := by
  cases hhas : hasReaction s m re em with
  | false =>
    rw [store_reaction_of_not_has s m mp re em ts hhas]
    have hfind := find_none_of_has_false s m re em hhas
    rw [List.find?_eq_none] at hfind
    refine ⟨?_, ?_, ?_⟩
    · simp only [List.map_append, List.map_cons, List.map_nil]
      rw [List.nodup_append]
      refine ⟨wf.1, List.nodup_singleton _, ?_⟩
      intro a ha hb
      simp only [List.mem_singleton] at hb
      obtain ⟨r, hr, hrid⟩ := List.mem_map.mp ha
      have := wf.2.1 r hr
      rw [hrid, hb] at this
      simp [newReactionRow] at this
    · intro r hr
      rcases List.mem_append.mp hr with hr1 | hr2
      · exact Nat.lt_succ_of_lt (wf.2.1 r hr1)
      · simp only [List.mem_singleton] at hr2
        rw [hr2]
        simp [newReactionRow]
    · simp only [List.map_append, List.map_cons, List.map_nil]
      rw [List.nodup_append]
      refine ⟨wf.2.2, List.nodup_singleton _, ?_⟩
      intro a ha hb
      simp only [List.mem_singleton] at hb
      obtain ⟨r, hr, hrt⟩ := List.mem_map.mp ha
      have hnm := hfind r hr
      rw [hb] at hrt
      have : reactionTriple r = (m, re, em) := by
        simpa [newReactionRow, reactionTriple] using hrt
      exact hnm ((tripleMatches_iff m re em r).mpr this)
  | true =>
    obtain ⟨x, hx, hpx⟩ := List.any_eq_true.mp hhas
    obtain ⟨ex, hfind⟩ := Option.isSome_iff_exists.mp (List.find?_isSome.mpr ⟨x, hx, hpx⟩)
    rw [store_reaction_of_find s m mp re em ts ex hfind]
    have hsub : List.Sublist (s.reactions.filter (fun r => r.id != ex.id)) s.reactions :=
      List.filter_sublist _
    exact ⟨(wf.1).sublist (hsub.map ReactionRow.id),
      fun r hr => wf.2.1 r (hsub.subset hr),
      (wf.2.2).sublist (hsub.map reactionTriple)⟩

/-- Claim C1: `store_reaction` is a pairwise-inverse toggle on the
`(message, reactor, emoji)` triple set: an absent triple is inserted with
result `true`, a present one deleted with result `false`, toggling twice
restores the triple set, and toggling three times from an empty store leaves
exactly one reaction. -/
theorem claim_C1_reaction_toggle (s : Storage) (m : Nat) (mp : Option Int)
    (re em : String) (ts ts2 : Int) (wf : ReactionsWF s) :
    ((hasReaction s m re em = false →
        (store_reaction m mp re em ts s).1 = true
        ∧ hasReaction (store_reaction m mp re em ts s).2 m re em = true
        ∧ (∀ m2 re2 em2, (m2, re2, em2) ≠ ((m, re, em) : Nat × String × String) →
            hasReaction (store_reaction m mp re em ts s).2 m2 re2 em2
              = hasReaction s m2 re2 em2))
    ∧ (hasReaction s m re em = true →
        (store_reaction m mp re em ts s).1 = false
        ∧ hasReaction (store_reaction m mp re em ts s).2 m re em = false
        ∧ (∀ m2 re2 em2, (m2, re2, em2) ≠ ((m, re, em) : Nat × String × String) →
            hasReaction (store_reaction m mp re em ts s).2 m2 re2 em2
              = hasReaction s m2 re2 em2))
    ∧ (∀ m2 re2 em2,
        hasReaction (store_reaction m mp re em ts2 (store_reaction m mp re em ts s).2).2
            m2 re2 em2
          = hasReaction s m2 re2 em2))
    ∧ ((store_reaction 1 none "!a" "👍" 2
          (store_reaction 1 none "!a" "👍" 1 Storage.empty).2).2.reactions = [])
    ∧ ((store_reaction 1 none "!a" "👍" 3
          (store_reaction 1 none "!a" "👍" 2
            (store_reaction 1 none "!a" "👍" 1 Storage.empty).2).2).2.reactions.map
        reactionTriple = [(1, "!a", "👍")]) := by
  refine ⟨⟨fun h => toggle_char_not_has s m mp re em ts h,
    fun h => toggle_char_has s m mp re em ts wf h, ?_⟩, rfl, rfl⟩
  intro m2 re2 em2
  have wf1 := toggle_preserves_WF s m mp re em ts wf
  cases hhas : hasReaction s m re em with
  | false =>
    have c1 := toggle_char_not_has s m mp re em ts hhas
    have c2 := toggle_char_has (store_reaction m mp re em ts s).2 m mp re em ts2 wf1 c1.2.1
    by_cases ht : (m2, re2, em2) = ((m, re, em) : Nat × String × String)
    · injection ht with h1 h23
      injection h23 with h2 h3
      subst h1
      subst h2
      subst h3
      rw [c2.2.1, hhas]
    · rw [c2.2.2 m2 re2 em2 ht, c1.2.2 m2 re2 em2 ht]
  | true =>
    have c1 := toggle_char_has s m mp re em ts wf hhas
    have c2 := toggle_char_not_has (store_reaction m mp re em ts s).2 m mp re em ts2 c1.2.1
    by_cases ht : (m2, re2, em2) = ((m, re, em) : Nat × String × String)
    · injection ht with h1 h23
      injection h23 with h2 h3
      subst h1
      subst h2
      subst h3
      rw [c2.2.1, hhas]
    · rw [c2.2.2 m2 re2 em2 ht, c1.2.2 m2 re2 em2 ht]

theorem claim_C1_witness :
    ReactionsWF Storage.empty ∧
    (hasReaction Storage.empty 1 "!a" "👍" = false →
      (store_reaction 1 none "!a" "👍" 5 Storage.empty).1 = true
      ∧ hasReaction (store_reaction 1 none "!a" "👍" 5 Storage.empty).2 1 "!a" "👍" = true
      ∧ (∀ m2 re2 em2, (m2, re2, em2) ≠ ((1, "!a", "👍") : Nat × String × String) →
          hasReaction (store_reaction 1 none "!a" "👍" 5 Storage.empty).2 m2 re2 em2
            = hasReaction Storage.empty m2 re2 em2)) :=
  ⟨⟨by decide, by decide, by decide⟩,
    (claim_C1_reaction_toggle Storage.empty 1 none "!a" "👍" 5 6
      ⟨by decide, by decide, by decide⟩).1.1⟩

lemma sqlSelect_length (p : PacketRow → Bool) (limit : Nat) (before_id : Option Nat)
    (rows : List PacketRow) : (sqlSelect p limit before_id rows).length ≤ limit :=
  List.length_take_le limit _

lemma sqlSelect_mem (p : PacketRow → Bool) (limit : Nat) (before_id : Option Nat)
    (rows : List PacketRow) (r : PacketRow) (h : r ∈ sqlSelect p limit before_id rows) :
    p r = true ∧ beforeOk before_id r = true ∧ r ∈ rows := by
  unfold sqlSelect sortDescById at h
  have h1 := List.mem_of_mem_take h
  have h2 := (List.perm_insertionSort rowGE _).subset h1
  rw [List.mem_filter] at h2
  have h3 := h2.2
  rw [Bool.and_eq_true] at h3
  exact ⟨h3.1, h3.2, h2.1⟩

lemma sqlSelect_sorted (p : PacketRow → Bool) (limit : Nat) (before_id : Option Nat)
    (rows : List PacketRow) : (sqlSelect p limit before_id rows).Pairwise rowGE :=
  (List.sorted_insertionSort rowGE _).sublist (List.take_sublist _ _)

lemma sqlSelect_nodup_ids (p : PacketRow → Bool) (limit : Nat) (before_id : Option Nat)
    (rows : List PacketRow) (h : (rows.map PacketRow.id).Nodup) :
    ((sqlSelect p limit before_id rows).map PacketRow.id).Nodup := by
  have hfilter : ((rows.filter (fun r => p r && beforeOk before_id r)).map PacketRow.id).Nodup :=
    h.sublist ((List.filter_sublist rows).map PacketRow.id)
  have hsort : ((sortDescById (rows.filter (fun r => p r && beforeOk before_id r))).map
      PacketRow.id).Nodup :=
    (((List.perm_insertionSort rowGE _).map PacketRow.id).nodup_iff).mpr hfilter
  exact hsort.sublist ((List.take_sublist limit _).map PacketRow.id)

lemma sqlSelect_strict_desc (p : PacketRow → Bool) (limit : Nat) (before_id : Option Nat)
    (rows : List PacketRow) (h : (rows.map PacketRow.id).Nodup) :
    (sqlSelect p limit before_id rows).Pairwise (fun a b => b.id < a.id) := by
  have h1 := sqlSelect_sorted p limit before_id rows
  have h2 : (sqlSelect p limit before_id rows).Pairwise (fun a b => a.id ≠ b.id) :=
    List.pairwise_map.mp (sqlSelect_nodup_ids p limit before_id rows h)
  exact (h1.and h2).imp (fun hab => lt_of_le_of_ne hab.1 (Ne.symm hab.2))

lemma mapped_page_props (p : PacketRow → Bool) (limit : Nat) (before_id : Option Nat)
    (rows : List PacketRow) (h : (rows.map PacketRow.id).Nodup) :
    ((((sqlSelect p limit before_id rows).reverse).map rowToStoredMessage).length ≤ limit)
    ∧ (∀ msg ∈ ((sqlSelect p limit before_id rows).reverse).map rowToStoredMessage,
        ∀ b, before_id = some b → msg.id < b)
    ∧ ((((sqlSelect p limit before_id rows).reverse).map rowToStoredMessage).Pairwise
        (fun a b => a.id < b.id)) := by
  refine ⟨?_, ?_, ?_⟩
  · rw [List.length_map, List.length_reverse]
    exact sqlSelect_length p limit before_id rows
  · intro msg hmsg b hb
    subst hb
    obtain ⟨r, hr, heq⟩ := List.mem_map.mp hmsg
    have hr2 := sqlSelect_mem p limit (some b) rows r (List.mem_reverse.mp hr)
    have hlt : r.id < b := of_decide_eq_true hr2.2.1
    rw [← heq]
    exact hlt
  · refine List.pairwise_map.mpr ?_
    rw [List.pairwise_reverse]
    exact sqlSelect_strict_desc p limit before_id rows h

/-- Claim C2: every history query (`get_text_messages`, `get_messages_for_node`,
`get_all_packets`) returns at most `limit` rows, all with id strictly below
`before_id` when given, in ascending id order; and on ten stored packets two
`limit=5` pages (the second keyed by the oldest id of the first) partition all
ten in chronological order. -/
theorem claim_C2_pagination (s : Storage) (channel : Option Int) (limit : Nat)
    (before_id : Option Nat) (broadcast_only : Bool) (node_id : PyVal) (dm_only : Bool)
    (portnum_filter : List String) (hnd : (s.packets.map PacketRow.id).Nodup) :
    ((get_text_messages channel limit before_id broadcast_only s).length ≤ limit
      ∧ (∀ msg ∈ get_text_messages channel limit before_id broadcast_only s,
          ∀ b, before_id = some b → msg.id < b)
      ∧ (get_text_messages channel limit before_id broadcast_only s).Pairwise
          (fun a b => a.id < b.id))
    ∧ ((get_messages_for_node node_id limit before_id channel dm_only s).length ≤ limit
      ∧ (∀ msg ∈ get_messages_for_node node_id limit before_id channel dm_only s,
          ∀ b, before_id = some b → msg.id < b)
      ∧ (get_messages_for_node node_id limit before_id channel dm_only s).Pairwise
          (fun a b => a.id < b.id))
    ∧ ((get_all_packets limit before_id portnum_filter s).length ≤ limit
      ∧ (∀ msg ∈ get_all_packets limit before_id portnum_filter s,
          ∀ b, before_id = some b → msg.id < b)
      ∧ (get_all_packets limit before_id portnum_filter s).Pairwise
          (fun a b => a.id < b.id))
    ∧ ((get_text_messages none 5 none false pagerS).map StoredMessage.id = [6, 7, 8, 9, 10]
      ∧ (get_text_messages none 5 (some 6) false pagerS).map StoredMessage.id
          = [1, 2, 3, 4, 5]) :=
  ⟨mapped_page_props (textMsgPred channel broadcast_only) limit before_id s.packets hnd,
   mapped_page_props (forNodePred (format_node_id node_id) channel dm_only) limit before_id
     s.packets hnd,
   mapped_page_props (allPacketsPred portnum_filter) limit before_id s.packets hnd,
   rfl, rfl⟩

theorem claim_C2_witness :
    ((pagerS.packets.map PacketRow.id).Nodup)
    ∧ (get_text_messages none 3 (some 6) false pagerS).length ≤ 3 :=
  ⟨by decide,
    (claim_C2_pagination pagerS none 3 (some 6) false (.str "!x") true [] (by decide)).1.1⟩

lemma find?_append_none {α : Type} (p : α → Bool) (l1 l2 : List α)
    (h : l1.find? p = none) : (l1 ++ l2).find? p = l2.find? p := by
  induction l1 with
  | nil => rfl
  | cons a t ih =>
    cases hpa : p a with
    | true => rw [List.find?_cons_of_pos _ hpa] at h; exact Option.noConfusion h
    | false =>
      rw [List.find?_cons_of_neg _ (by simp [hpa])] at h
      rw [List.cons_append, List.find?_cons_of_neg _ (by simp [hpa])]
      exact ih h

lemma find_message_after_store (s2 : Storage) (pkt : PyDict) (ts2 : Int) (pid : Int)
    (h2 : find_message_by_packet_id pid s2 = none) (h3 : pktPid pkt = some pid) :
    find_message_by_packet_id pid (store_packet pkt ts2 s2).2
      = some (rowToStoredMessage (mkPacketRow pkt ts2 s2)) := by
  have hnone : s2.packets.find? (fun r => r.packet_id == some pid) = none :=
    Option.map_eq_none'.mp h2
  show ((s2.packets ++ [mkPacketRow pkt ts2 s2]).find?
      (fun r => r.packet_id == some pid)).map rowToStoredMessage = _
  rw [find?_append_none _ _ _ hnone]
  have hsc : ((mkPacketRow pkt ts2 s2).packet_id == some pid) = true := by
    show (pktPid pkt == some pid) = true
    rw [h3]
    simp
  simp [List.find?_cons, hsc]

/-- Claim C3: a reply link created while no stored packet carries the parent's
protocol packet id returns `none` and records a null resolved parent id; once a
packet with that protocol id is persisted, `get_parent_message` on the reply
returns that parent packet (preferring the stored resolved id, else re-trying
the protocol-id lookup). -/
theorem claim_C3_reply_resolution (s : Storage) (rid : Nat) (pid : Int) (ts : Int)
    (hfind : find_message_by_packet_id pid s = none)
    (href : get_reply_ref rid s = none) :
    ((store_reply_ref rid pid ts s).1 = none
      ∧ get_reply_ref rid (store_reply_ref rid pid ts s).2
          = some { parent_db_id := none, parent_packet_id := pid, timestamp := ts })
    ∧ (∀ (s2 : Storage) (pkt : PyDict) (ts2 : Int),
        get_reply_ref rid s2
            = some { parent_db_id := none, parent_packet_id := pid, timestamp := ts }
        → find_message_by_packet_id pid s2 = none
        → pktPid pkt = some pid
        → (get_parent_message rid (store_packet pkt ts2 s2).2
              = find_message_by_packet_id pid (store_packet pkt ts2 s2).2
          ∧ ∃ msg, get_parent_message rid (store_packet pkt ts2 s2).2 = some msg
              ∧ msg.packet_id = some pid)) := by
  constructor
  · have h1 : (store_reply_ref rid pid ts s).1 = none := by
      show (find_message_by_packet_id pid s).map StoredMessage.id = none
      rw [hfind]
      rfl
    refine ⟨h1, ?_⟩
    have hrefs : s.replyRefs.find? (fun r => r.reply_db_id == rid) = none :=
      Option.map_eq_none'.mp href
    show ((s.replyRefs ++ [({
        id := s.nextReplyRefId
        reply_db_id := rid
        parent_db_id := (find_message_by_packet_id pid s).map StoredMessage.id
        parent_packet_id := pid
        timestamp := ts } : ReplyRefRow)]).find?
      (fun r => r.reply_db_id == rid)).map (fun r =>
        ({ parent_db_id := r.parent_db_id, parent_packet_id := r.parent_packet_id,
           timestamp := r.timestamp } : ReplyRefInfo)) = _
    rw [find?_append_none _ _ _ hrefs]
    simp [List.find?_cons, hfind]
  · intro s2 pkt ts2 h1 h2 h3
    have hfound := find_message_after_store s2 pkt ts2 pid h2 h3
    have h1b : get_reply_ref rid (store_packet pkt ts2 s2).2
        = some { parent_db_id := none, parent_packet_id := pid, timestamp := ts } := h1
    have hparent : get_parent_message rid (store_packet pkt ts2 s2).2
        = find_message_by_packet_id pid (store_packet pkt ts2 s2).2 := by
      unfold get_parent_message
      rw [h1b]
    refine ⟨hparent, rowToStoredMessage (mkPacketRow pkt ts2 s2), ?_, ?_⟩
    · rw [hparent, hfound]
    · show pktPid pkt = some pid
      exact h3

theorem claim_C3_witness :
    (find_message_by_packet_id 7 Storage.empty = none
      ∧ get_reply_ref 1 Storage.empty = none)
    ∧ ((store_reply_ref 1 7 10 Storage.empty).1 = none
      ∧ get_reply_ref 1 (store_reply_ref 1 7 10 Storage.empty).2
          = some { parent_db_id := none, parent_packet_id := 7, timestamp := 10 })
    ∧ (get_parent_message 1
          (store_packet cexPkt1 11 (store_reply_ref 1 7 10 Storage.empty).2).2
        = find_message_by_packet_id 7
            (store_packet cexPkt1 11 (store_reply_ref 1 7 10 Storage.empty).2).2
      ∧ ∃ msg, get_parent_message 1
            (store_packet cexPkt1 11 (store_reply_ref 1 7 10 Storage.empty).2).2
          = some msg ∧ msg.packet_id = some 7) :=
  ⟨⟨rfl, rfl⟩,
    (claim_C3_reply_resolution Storage.empty 1 7 10 rfl rfl).1,
    (claim_C3_reply_resolution Storage.empty 1 7 10 rfl rfl).2
      (store_reply_ref 1 7 10 Storage.empty).2 cexPkt1 11 rfl rfl rfl⟩

lemma leadMatch_nil_needle (s : List Char) : leadMatch s [] = true := by
  cases s <;> rfl

lemma asciiLower_beq_comm (c d : Char) : (asciiLower c == asciiLower d)
    = (asciiLower d == asciiLower c) := by
  cases h : (asciiLower c == asciiLower d) with
  | true =>
    have he : asciiLower c = asciiLower d := by simpa using h
    simp [he]
  | false =>
    have he : asciiLower c ≠ asciiLower d := by simpa using h
    have : (asciiLower d == asciiLower c) = false := by simpa using (Ne.symm he)
    rw [this]

lemma likeMatch_lead : ∀ (t : List Char), (∀ c ∈ t, c ≠ '%' ∧ c ≠ '_') →
    ∀ s, likeMatch (t ++ ['%']) s = leadMatch s t := by
  intro t
  induction t with
  | nil =>
    intro _ s
    have h2 : likeMatch ['%'] s = s.tails.any (fun t2 => likeMatch [] t2) := by
      simp [likeMatch]
    rw [List.nil_append, h2, leadMatch_nil_needle]
    apply List.any_eq_true.mpr
    refine ⟨[], ?_, rfl⟩
    rw [List.mem_tails]
    exact List.nil_suffix
  | cons c t ih =>
    intro ht s
    have hc := ht c (by simp)
    have iht := ih (fun c2 hc2 => ht c2 (by simp [hc2]))
    cases s with
    | nil => simp [likeMatch, leadMatch, hc.1]
    | cons d s2 =>
      show likeMatch (c :: (t ++ ['%'])) (d :: s2) = leadMatch (d :: s2) (c :: t)
      rw [show likeMatch (c :: (t ++ ['%'])) (d :: s2)
          = ((asciiLower c == asciiLower d) && likeMatch (t ++ ['%']) s2) from by
        simp [likeMatch, hc.1, hc.2]]
      rw [show leadMatch (d :: s2) (c :: t)
          = ((asciiLower d == asciiLower c) && leadMatch s2 t) from rfl]
      rw [iht s2, asciiLower_beq_comm]

lemma likeTerm_subMatch (term : String) (h : noWildcard term) (s : String) :
    likeTerm term s = subMatch s.toList term.toList := by
  show likeMatch ('%' :: (term.toList ++ ['%'])) s.toList = _
  rw [show likeMatch ('%' :: (term.toList ++ ['%'])) s.toList
      = s.toList.tails.any (fun t2 => likeMatch (term.toList ++ ['%']) t2) from by
    simp [likeMatch]]
  exact congrArg _ (funext fun t2 => likeMatch_lead term.toList h t2)

lemma likeOptStr_some (term : String) (v : Option JVal) (h : likeOptStr term v = true) :
    ∃ txt, v = some (.str txt) ∧ likeTerm term txt = true := by
  unfold likeOptStr at h
  match v, h with
  | some (.str txt), h => exact ⟨txt, rfl, h⟩

/-- Claim C5 fails on the code as universally stated: SQL `LIKE` treats `%`
and `_` in the search term as wildcards, so a term need not be a literal
substring of the matched text.  Searching `h_llo` over a store whose only
packet is the text message `hello` (and whose node table is empty) returns
that packet although `h_llo` is not a case-insensitive substring of
`hello`. -/
theorem claim_C5_counterexample :
    ((search_packets "h_llo" 100 none searchWildS).map StoredMessage.id = [1])
    ∧ subMatch "hello".toList "h_llo".toList = false
    ∧ searchWildS.nodes = [] :=
  ⟨rfl, by decide, rfl⟩

/-- Claim C5 (amended): for a search term containing no SQL LIKE wildcard,
`search_packets` matches a packet only when the term is an ASCII-case-
insensitive substring of the text content of a text-kind message or of the
short/long display name of a node the packet is from or to — never the
port-kind tag, raw protocol fields, or numeric codes; `count_search_results`
counts exactly the packets the same predicate matches; and searching a
telemetry store for its port-kind literal returns 0 results. -/
theorem claim_C5_search_amended (s : Storage) (term : String) (limit : Nat)
    (before_id : Option Nat) (msg : StoredMessage) (hw : noWildcard term)
    (hmem : msg ∈ search_packets term limit before_id s) :
    ((isTextPort msg.portnum = true
        ∧ ∃ txt, jGet msg.payload "text" = some (.str txt)
            ∧ subMatch txt.toList term.toList = true)
      ∨ (∃ n ∈ s.nodes, (n.node_id = msg.from_node ∨ n.node_id = msg.to_node)
          ∧ ((∃ nm, jPath2 n.data "user" "shortName" = some (.str nm)
                ∧ subMatch nm.toList term.toList = true)
            ∨ (∃ nm, jPath2 n.data "user" "longName" = some (.str nm)
                ∧ subMatch nm.toList term.toList = true))))
    ∧ (count_search_results term s
        = (search_packets term s.packets.length none s).length)
    ∧ (search_packets "TELEMETRY_APP" 100 none telemS = []
      ∧ count_search_results "TELEMETRY_APP" telemS = 0) := by
  refine ⟨?_, ?_, rfl, rfl⟩
  · obtain ⟨r, hr, heq⟩ := List.mem_map.mp hmem
    subst heq
    have hpred := (sqlSelect_mem _ limit before_id s.packets r hr).1
    rw [searchRowPred] at hpred
    rw [Bool.or_eq_true, Bool.or_eq_true] at hpred
    rcases hpred with (htext | hfrom) | hto
    · left
      rw [Bool.and_eq_true] at htext
      obtain ⟨txt, hv, hlike⟩ := likeOptStr_some term _ htext.2
      refine ⟨htext.1, txt, hv, ?_⟩
      rw [← likeTerm_subMatch term hw txt]
      exact hlike
    · right
      have hmem2 : (rowToStoredMessage r).from_node ∈ find_nodes_by_name term s := by
        simpa using hfrom
      obtain ⟨n, hn, hnid⟩ := List.mem_map.mp hmem2
      rw [List.mem_filter] at hn
      rw [Bool.or_eq_true] at hn
      refine ⟨n, hn.1, Or.inl hnid, ?_⟩
      rcases hn.2 with hshort | hlong
      · obtain ⟨nm, hv, hlike⟩ := likeOptStr_some term _ hshort
        exact Or.inl ⟨nm, hv, by rw [← likeTerm_subMatch term hw nm]; exact hlike⟩
      · obtain ⟨nm, hv, hlike⟩ := likeOptStr_some term _ hlong
        exact Or.inr ⟨nm, hv, by rw [← likeTerm_subMatch term hw nm]; exact hlike⟩
    · right
      have hmem2 : (rowToStoredMessage r).to_node ∈ find_nodes_by_name term s := by
        simpa using hto
      obtain ⟨n, hn, hnid⟩ := List.mem_map.mp hmem2
      rw [List.mem_filter] at hn
      rw [Bool.or_eq_true] at hn
      refine ⟨n, hn.1, Or.inr hnid, ?_⟩
      rcases hn.2 with hshort | hlong
      · obtain ⟨nm, hv, hlike⟩ := likeOptStr_some term _ hshort
        exact Or.inl ⟨nm, hv, by rw [← likeTerm_subMatch term hw nm]; exact hlike⟩
      · obtain ⟨nm, hv, hlike⟩ := likeOptStr_some term _ hlong
        exact Or.inr ⟨nm, hv, by rw [← likeTerm_subMatch term hw nm]; exact hlike⟩
  · show (s.packets.filter (searchRowPred term (find_nodes_by_name term s))).length = _
    have hfc : s.packets.filter
          (fun r => searchRowPred term (find_nodes_by_name term s) r && beforeOk none r)
        = s.packets.filter (searchRowPred term (find_nodes_by_name term s)) := by
      apply List.filter_congr
      intro r _
      simp [beforeOk]
    show _ = ((sqlSelect (searchRowPred term (find_nodes_by_name term s))
        s.packets.length none s.packets).map rowToStoredMessage).length
    rw [List.length_map]
    unfold sqlSelect sortDescById
    rw [hfc]
    have hlen : (List.insertionSort rowGE
          (s.packets.filter (searchRowPred term (find_nodes_by_name term s)))).length
        = (s.packets.filter (searchRowPred term (find_nodes_by_name term s))).length :=
      (List.perm_insertionSort rowGE _).length_eq
    rw [List.take_of_length_le (by rw [hlen]; exact List.length_filter_le _ _), hlen]

theorem claim_C5_witness :
    noWildcard "ell"
    ∧ (rowToStoredMessage helloRow ∈ search_packets "ell" 100 none searchWildS)
    ∧ count_search_results "ell" searchWildS
        = (search_packets "ell" searchWildS.packets.length none searchWildS).length := by
  have hmem : rowToStoredMessage helloRow ∈ search_packets "ell" 100 none searchWildS := by
    rw [show search_packets "ell" 100 none searchWildS = [rowToStoredMessage helloRow]
      from rfl]
    exact List.mem_singleton.mpr rfl
  exact ⟨by decide, hmem,
    (claim_C5_search_amended searchWildS "ell" 100 none (rowToStoredMessage helloRow)
      (by decide) hmem).2.1⟩

lemma pktDelivered_lookup (pkt : PyDict) (d : Bool) (h : pktDelivered pkt = some d) :
    pkt.lookup "_delivered" = some (.bool d) := by
  unfold pktDelivered at h
  split at h
  · rename_i b heq
    injection h with hbd
    rw [heq, hbd]
  · exact Option.noConfusion h

lemma objSet_jsonDict_self (pkt : PyDict) (k : String) (v : PyVal)
    (hl : pkt.lookup k = some v) (hnd : (pkt.map Prod.fst).Nodup) :
    objSet (jsonSerializable (.dict pkt)) k (jsonSerializable v)
      = jsonSerializable (.dict pkt) := by
  show JVal.obj (alistSet (jsonSerializableKVs pkt) k (jsonSerializable v))
      = .obj (jsonSerializableKVs pkt)
  refine congrArg JVal.obj (alistSet_self _ k _ ?_ ?_)
  · rw [jsonKVs_lookup, hl]
    rfl
  · rw [jsonKVs_keys]
    exact hnd

lemma restoreRaw_id (delivered : Option Bool) (raw : JVal)
    (h1 : objSet raw "_tx" (.bool true) = raw)
    (h2 : ∀ d, delivered = some d → objSet raw "_delivered" (.bool d) = raw) :
    restoreRaw true delivered none raw = raw := by
  unfold restoreRaw
  cases delivered with
  | none => simp [h1]
  | some d =>
    rw [if_pos rfl]
    simp only [h1, h2 d rfl]
    cases d <;> rfl

/-- Claim C6 fails on the code as universally stated: protocol packet ids are
not unique, and `find_message_by_packet_id` returns the first stored row with
that id.  After inserting two different packets both carrying protocol id 7,
retrieval by id 7 returns the first packet's canonical payload, not the second
inserted record's. -/
theorem claim_C6_counterexample :
    (pktPid cexPkt2 = some 7)
    ∧ (((find_message_by_packet_id 7
          (store_packet cexPkt2 11 (store_packet cexPkt1 10 Storage.empty).2).2).map
        (fun m => (jGet m.payload "text").bind jStrOpt)) = some (some "first"))
    ∧ ((jGet (jsonSerializable (.dict (pktDecoded cexPkt2))) "text").bind jStrOpt
        = some "second")
    ∧ ((some (some "first") : Option (Option String)) ≠ some (some "second")) :=
  ⟨rfl, rfl, rfl, by decide⟩

/-- Claim C6 (amended): provided no already-stored packet carries the same
protocol packet id, a packet inserted by `store_packet` is returned by
`find_message_by_packet_id` with every field equal to the inserted record's
canonical (primitive-serialized) form: the raw record additionally has its
delivery markers restored, which is the identity whenever the record's
`_tx`/`_delivered` fields are absent or proper booleans. -/
theorem claim_C6_roundtrip_amended (s : Storage) (pkt : PyDict) (ts : Int) (pid : Int)
    (hpid : pktPid pkt = some pid)
    (hnone : find_message_by_packet_id pid s = none)
    (hnd : (pkt.map Prod.fst).Nodup) :
    ∃ msg, find_message_by_packet_id pid (store_packet pkt ts s).2 = some msg
      ∧ msg.id = (store_packet pkt ts s).1
      ∧ msg.timestamp = ts
      ∧ msg.packet_id = some pid
      ∧ msg.from_node = format_node_id (pktFrom pkt)
      ∧ msg.to_node = format_node_id (pktTo pkt)
      ∧ msg.channel = pktChannel pkt
      ∧ msg.portnum = pktPortnum pkt
      ∧ msg.payload = jsonSerializable (.dict (pktDecoded pkt))
      ∧ msg.snr = pktSnr pkt
      ∧ msg.rssi = pktRssi pkt
      ∧ msg.hops = pktHops pkt
      ∧ msg.is_tx = pktIsTx pkt
      ∧ msg.delivered = pktDelivered pkt
      ∧ msg.error_reason = none
      ∧ msg.raw_packet
          = restoreRaw (pktIsTx pkt) (pktDelivered pkt) none (jsonSerializable (.dict pkt))
      ∧ (pktIsTx pkt = false → msg.raw_packet = jsonSerializable (.dict pkt))
      ∧ (pkt.lookup "_tx" = some (.bool true) →
          msg.raw_packet = jsonSerializable (.dict pkt)) := by
  refine ⟨rowToStoredMessage (mkPacketRow pkt ts s),
    find_message_after_store s pkt ts pid hnone hpid,
    rfl, rfl, hpid, rfl, rfl, rfl, rfl, rfl, rfl, rfl, rfl, rfl, rfl,
    ite_self none, rfl, ?_, ?_⟩
  · intro h
    show restoreRaw (pktIsTx pkt) (pktDelivered pkt) none (jsonSerializable (.dict pkt))
        = jsonSerializable (.dict pkt)
    rw [h]
    rfl
  · intro htx
    have htxv : pktIsTx pkt = true := by
      unfold pktIsTx
      rw [htx]
      rfl
    have h1 : objSet (jsonSerializable (.dict pkt)) "_tx" (.bool true)
        = jsonSerializable (.dict pkt) :=
      objSet_jsonDict_self pkt "_tx" (.bool true) htx hnd
    have h2 : ∀ d, pktDelivered pkt = some d →
        objSet (jsonSerializable (.dict pkt)) "_delivered" (.bool d)
          = jsonSerializable (.dict pkt) :=
      fun d hd => objSet_jsonDict_self pkt "_delivered" (.bool d)
        (pktDelivered_lookup pkt d hd) hnd
    show restoreRaw (pktIsTx pkt) (pktDelivered pkt) none (jsonSerializable (.dict pkt))
        = jsonSerializable (.dict pkt)
    rw [htxv]
    exact restoreRaw_id (pktDelivered pkt) _ h1 h2

theorem claim_C6_witness :
    (pktPid cexPkt1 = some 7
      ∧ find_message_by_packet_id 7 Storage.empty = none
      ∧ (cexPkt1.map Prod.fst).Nodup)
    ∧ (∃ msg, find_message_by_packet_id 7 (store_packet cexPkt1 10 Storage.empty).2
          = some msg
        ∧ msg.packet_id = some 7) := by
  refine ⟨⟨rfl, rfl, by decide⟩, ?_⟩
  obtain ⟨msg, hfind, hid, hts, hpid, hrest⟩ :=
    claim_C6_roundtrip_amended Storage.empty cexPkt1 10 7 rfl rfl (by decide)
  exact ⟨msg, hfind, hpid⟩

end Meshterm
